import Mathlib

/-!
Verification of the order-lifecycle and payment core of the
MasterpieceEmpire/E-commerce-Backend repository (`megamall/views.py`,
`megamall/models.py`).  Python strings are modelled as `List Char`
(with a `String` wrapper where convenient), decimal amounts as `ℚ`,
and `datetime.utcnow()` instants as integer seconds.
-/

namespace Megamall

/-- Python `str.strip()` whitespace set (ASCII subset actually exercised
by phone inputs: space, tab, newline, carriage return, vertical tab,
form feed). -/
def isPySpace (c : Char) : Bool :=
  c = ' ' || c = '\t' || c = '\n' || c = '\r' || c = '\x0b' || c = '\x0c'

/-- Remove leading whitespace, as the left half of Python `str.strip()`. -/
def lstrip (s : List Char) : List Char := s.dropWhile isPySpace

/-- Remove trailing whitespace, as the right half of Python `str.strip()`. -/
def rstrip (s : List Char) : List Char := (s.reverse.dropWhile isPySpace).reverse

/-- Python `str.strip()`: drop leading and trailing whitespace. -/
def pyStrip (s : List Char) : List Char := rstrip (lstrip s)

/-- Python `s.startswith(pat)`: first argument is the pattern. -/
def startsWith : List Char → List Char → Bool
  | [], _ => true
  | _ :: _, [] => false
  | a :: as, b :: bs => a == b && startsWith as bs

/-- `normalize_phone` from `megamall/views.py` (lines 604-615), on the
stripped input: the chain of `startswith` tests and prefixings.
`phone[1:]` is `List.tail`. -/
def normalizePhoneCore (p : List Char) : List Char :=
  if startsWith ['2', '5', '4'] p then '+' :: p
  else if startsWith ['0'] p then '+' :: '2' :: '5' :: '4' :: p.tail
  else if startsWith ['+', '2', '5', '4'] p then p
  else '+' :: '2' :: '5' :: '4' :: p

/-- `normalize_phone(phone)` from `megamall/views.py`: `str(phone).strip()`
followed by the prefix rewriting.  The `str(...)` coercion is applied by
the caller (see `pyStrOfOpt`). -/
def normalize_phone (phone : List Char) : List Char :=
  normalizePhoneCore (pyStrip phone)

/-- String-level wrapper for `normalize_phone`. -/
def normalizePhoneS (s : String) : String :=
  ⟨normalize_phone s.data⟩

/-- Python `str(x)` for an optional string drawn from `request.data.get(...)`:
`None` renders as the four-character string `"None"`. -/
def pyStrOfOpt (x : Option String) : String :=
  match x with
  | none => "None"
  | some s => s

/-! ### Strip lemmas used for the idempotence of `normalize_phone` -/

theorem dropWhile_length_le (p : Char → Bool) (l : List Char) :
    (List.dropWhile p l).length ≤ l.length := by
  induction l with
  | nil => simp
  | cons a t ih =>
    rw [List.dropWhile_cons]
    by_cases h : p a = true
    · rw [if_pos h]
      simp only [List.length_cons]
      omega
    · rw [if_neg h]

theorem dropWhile_cons_self {p : Char → Bool} {a : Char} {l : List Char}
    (h : List.dropWhile p (a :: l) = a :: l) : p a = false := by
  by_contra hpa
  have hpa' : p a = true := by
    cases hp : p a
    · exact absurd hp hpa
    · rfl
  rw [List.dropWhile_cons, if_pos hpa'] at h
  have hlen := congrArg List.length h
  have hle := dropWhile_length_le p l
  simp only [List.length_cons] at hlen
  omega

theorem dropWhile_idem (p : Char → Bool) (l : List Char) :
    List.dropWhile p (List.dropWhile p l) = List.dropWhile p l := by
  induction l with
  | nil => rfl
  | cons a t ih =>
    rw [List.dropWhile_cons]
    by_cases hpa : p a = true
    · rw [if_pos hpa]; exact ih
    · have hpa' : p a = false := by
        cases hp : p a
        · rfl
        · exact absurd hp hpa
      rw [if_neg hpa, List.dropWhile_cons, if_neg hpa]

theorem lstrip_idem (l : List Char) : lstrip (lstrip l) = lstrip l :=
  dropWhile_idem isPySpace l

theorem rstrip_idem (l : List Char) : rstrip (rstrip l) = rstrip l := by
  unfold rstrip
  rw [List.reverse_reverse, dropWhile_idem]

/-- A list fixed by `rstrip` and nonempty reverses to a list whose head is
not whitespace. -/
theorem rstrip_fix_reverse_head {l : List Char} (hfix : rstrip l = l)
    (hne : l ≠ []) :
    ∃ c t, l.reverse = c :: t ∧ isPySpace c = false := by
  have hrne : l.reverse ≠ [] := by
    intro hcon
    exact hne (List.reverse_eq_nil_iff.mp hcon)
  obtain ⟨c, t, hct⟩ := List.exists_cons_of_ne_nil hrne
  refine ⟨c, t, hct, ?_⟩
  have hdw : List.dropWhile isPySpace (c :: t) = c :: t := by
    have : (l.reverse.dropWhile isPySpace).reverse = l := hfix
    have h2 : l.reverse.dropWhile isPySpace = l.reverse := by
      have := congrArg List.reverse this
      rwa [List.reverse_reverse] at this
    rwa [hct] at h2
  exact dropWhile_cons_self hdw

/-- Prepending anything to a nonempty right-stripped list leaves it
right-stripped. -/
theorem rstrip_append_right {l : List Char} (a : List Char)
    (hfix : rstrip l = l) (hne : l ≠ []) : rstrip (a ++ l) = a ++ l := by
  obtain ⟨c, t, hct, hc⟩ := rstrip_fix_reverse_head hfix hne
  unfold rstrip
  rw [List.reverse_append, hct, List.cons_append, List.dropWhile_cons,
    if_neg (by simp [hc]), ← List.cons_append, ← hct, List.reverse_append,
    List.reverse_reverse, List.reverse_reverse]

/-- The tail of a nonempty-tailed right-stripped list is right-stripped. -/
theorem rstrip_fix_tail {c : Char} {q : List Char}
    (hfix : rstrip (c :: q) = c :: q) (hq : q ≠ []) : rstrip q = q := by
  obtain ⟨d, t, hdt, hd⟩ := rstrip_fix_reverse_head hfix (by simp)
  have hrev : (c :: q).reverse = q.reverse ++ [c] := by simp
  have hqne : q.reverse ≠ [] := by
    intro hcon
    exact hq (List.reverse_eq_nil_iff.mp hcon)
  obtain ⟨d', t', hdt'⟩ := List.exists_cons_of_ne_nil hqne
  have hd'head : d' = d := by
    rw [hrev, hdt'] at hdt
    simpa using congrArg (fun l => l.headD ' ') hdt
  unfold rstrip
  rw [hdt', List.dropWhile_cons, if_neg (by simp [hd'head, hd]),
    ← hdt', List.reverse_reverse]

/-- `rstrip l` is a prefix of `l`: the trailing whitespace is what is cut. -/
theorem rstrip_append_takeWhile (l : List Char) :
    rstrip l ++ (l.reverse.takeWhile isPySpace).reverse = l := by
  unfold rstrip
  rw [← List.reverse_append, List.takeWhile_append_dropWhile,
    List.reverse_reverse]

/-- A left-stripped list stays left-stripped after right-stripping. -/
theorem lstrip_rstrip {l : List Char} (hfix : lstrip l = l) :
    lstrip (rstrip l) = rstrip l := by
  by_cases hr : rstrip l = []
  · rw [hr]; rfl
  · obtain ⟨c, t, hct⟩ := List.exists_cons_of_ne_nil hr
    have ha := rstrip_append_takeWhile l
    have hcns : isPySpace c = false := by
      set r := (l.reverse.takeWhile isPySpace).reverse with hrdef
      have hl : l = c :: (t ++ r) := by
        rw [← ha, hct, List.cons_append]
      have hfix' := hfix
      unfold lstrip at hfix'
      rw [hl] at hfix'
      exact dropWhile_cons_self hfix'
    unfold lstrip
    rw [hct, List.dropWhile_cons, if_neg (by simp [hcns])]

/-- `pyStrip` always produces a list fixed by `rstrip`. -/
theorem rstrip_pyStrip (x : List Char) : rstrip (pyStrip x) = pyStrip x := by
  unfold pyStrip
  exact rstrip_idem (lstrip x)

/-- `pyStrip` always produces a list fixed by `lstrip`. -/
theorem lstrip_pyStrip (x : List Char) : lstrip (pyStrip x) = pyStrip x := by
  unfold pyStrip
  exact lstrip_rstrip (lstrip_idem x)

/-- `pyStrip` is idempotent. -/
theorem pyStrip_idem (x : List Char) : pyStrip (pyStrip x) = pyStrip x := by
  show rstrip (lstrip (pyStrip x)) = pyStrip x
  rw [lstrip_pyStrip, rstrip_pyStrip]

/-- A successful `startsWith` exposes the pattern as a literal prefix. -/
theorem startsWith_append (pat : List Char) :
    ∀ s : List Char, startsWith pat s = true → ∃ rest, s = pat ++ rest := by
  induction pat with
  | nil => exact fun s _ => ⟨s, rfl⟩
  | cons a as ih =>
    intro s h
    cases s with
    | nil => simp [startsWith] at h
    | cons b bs =>
      simp only [startsWith, Bool.and_eq_true, beq_iff_eq] at h
      obtain ⟨rest, hr⟩ := ih bs h.2
      exact ⟨rest, by rw [← h.1, hr]; rfl⟩

/-- Every output of `normalizePhoneCore` carries the `+254` prefix. -/
theorem normalizePhoneCore_plus (p : List Char) :
    ∃ rest, normalizePhoneCore p = '+' :: '2' :: '5' :: '4' :: rest := by
  unfold normalizePhoneCore
  by_cases h1 : startsWith ['2', '5', '4'] p = true
  · rw [if_pos h1]
    obtain ⟨rest, hp⟩ := startsWith_append _ _ h1
    exact ⟨rest, by simp [hp]⟩
  · rw [if_neg h1]
    by_cases h2 : startsWith ['0'] p = true
    · rw [if_pos h2]
      exact ⟨p.tail, rfl⟩
    · rw [if_neg h2]
      by_cases h3 : startsWith ['+', '2', '5', '4'] p = true
      · rw [if_pos h3]
        obtain ⟨rest, hp⟩ := startsWith_append _ _ h3
        exact ⟨rest, by simp [hp]⟩
      · rw [if_neg h3]
        exact ⟨p, rfl⟩

/-- `normalizePhoneCore` is the identity on its own outputs. -/
theorem normalizePhoneCore_idem (p : List Char) :
    normalizePhoneCore (normalizePhoneCore p) = normalizePhoneCore p := by
  obtain ⟨rest, hr⟩ := normalizePhoneCore_plus p
  rw [hr]
  conv_lhs => unfold normalizePhoneCore
  simp [startsWith]

/-- A normalised phone is already stripped when the input to
`normalizePhoneCore` was stripped. -/
theorem pyStrip_normalizePhoneCore {p : List Char}
    (hl : lstrip p = p) (hr : rstrip p = p) :
    pyStrip (normalizePhoneCore p) = normalizePhoneCore p := by
  have plusStrip : ∀ q : List Char, rstrip q = q →
      pyStrip ('+' :: '2' :: '5' :: '4' :: q) = '+' :: '2' :: '5' :: '4' :: q := by
    intro q hq
    by_cases hqe : q = []
    · subst hqe
      decide
    · unfold pyStrip lstrip
      rw [List.dropWhile_cons, if_neg (by decide)]
      exact rstrip_append_right ['+', '2', '5', '4'] hq hqe
  unfold normalizePhoneCore
  by_cases h1 : startsWith ['2', '5', '4'] p = true
  · rw [if_pos h1]
    obtain ⟨rest, hp⟩ : ∃ rest, p = '2' :: '5' :: '4' :: rest :=
      startsWith_append _ _ h1
    have : '+' :: p = '+' :: '2' :: '5' :: '4' :: rest := by rw [hp]
    rw [this]
    have hrrest : rstrip ('5' :: '4' :: rest) = '5' :: '4' :: rest := by
      have h2 := @rstrip_fix_tail '2' ('5' :: '4' :: rest)
        (by rw [← hp]; exact hr) (by simp)
      exact h2
    have h54 : rstrip ('4' :: rest) = '4' :: rest :=
      rstrip_fix_tail hrrest (by simp)
    by_cases hre : rest = []
    · subst hre
      decide
    · have hrest : rstrip rest = rest := rstrip_fix_tail h54 hre
      exact plusStrip rest hrest
  · rw [if_neg h1]
    by_cases h2 : startsWith ['0'] p = true
    · rw [if_pos h2]
      obtain ⟨q, hp⟩ : ∃ q, p = '0' :: q := by
        obtain ⟨q, hq⟩ := startsWith_append _ _ h2
        exact ⟨q, hq⟩
      have htail : p.tail = q := by rw [hp]; rfl
      rw [htail]
      by_cases hqe : q = []
      · subst hqe
        decide
      · have hq : rstrip q = q :=
          rstrip_fix_tail (c := '0') (by rw [← hp]; exact hr) hqe
        exact plusStrip q hq
    · rw [if_neg h2]
      by_cases h3 : startsWith ['+', '2', '5', '4'] p = true
      · rw [if_pos h3]
        unfold pyStrip
        rw [hl, hr]
      · rw [if_neg h3]
        by_cases hpe : p = []
        · subst hpe
          decide
        · exact plusStrip p hr

/-- `normalize_phone` is idempotent on `List Char`. -/
theorem normalize_phone_idem (x : List Char) :
    normalize_phone (normalize_phone x) = normalize_phone x := by
  unfold normalize_phone
  rw [pyStrip_normalizePhoneCore (lstrip_pyStrip x) (rstrip_pyStrip x),
    normalizePhoneCore_idem]

/-- `normalize_phone` is idempotent at the `String` level as well. -/
theorem normalizePhoneS_idem (x : String) :
    normalizePhoneS (normalizePhoneS x) = normalizePhoneS x := by
  unfold normalizePhoneS
  rw [normalize_phone_idem]

/-! ### Order creation: `create_order` (`megamall/views.py` lines 369-420)

`Product.price` is the current catalog price (`DecimalField`, modelled
as `ℚ`).  A cart line from the request JSON carries `id`, an optional
`quantity` (`item.get("quantity", 1)`), and possibly a client-submitted
per-item price, which no line of `create_order` ever reads. -/

structure Product where
  id : String
  price : ℚ
  deriving DecidableEq, Repr

structure CartItem where
  id : String
  quantity : Option Nat
  clientPrice : Option ℚ
  deriving DecidableEq, Repr

structure OrderItemDoc where
  quantity : Nat
  price : ℚ
  deriving DecidableEq, Repr

structure OrderDoc where
  total_price : ℚ
  status : String
  items : List OrderItemDoc
  deriving DecidableEq, Repr

inductive CreateOrderResult where
  | badRequest (detail : String)
  | created (order : OrderDoc)
  | serverError (orderSoFar : OrderDoc)
  deriving DecidableEq, Repr

/-- The item loop of `create_order`: each line resolves its product with
`get_object_or_404(Product, id=item.get("id"))` and persists an
`OrderItem` with `quantity=item.get("quantity", 1)` and
`price=product.price`.  A missing product raises `Http404`, which the
outer `except Exception` turns into a 500 after the items before it were
already written; the `Bool` records whether the whole loop succeeded. -/
def insertOrderItems (catalog : List Product) :
    List CartItem → List OrderItemDoc × Bool
  | [] => ([], true)
  | it :: rest =>
    match catalog.find? (fun p => p.id == it.id) with
    | none => ([], false)
    | some p =>
      let tailRes := insertOrderItems catalog rest
      (⟨it.quantity.getD 1, p.price⟩ :: tailRes.1, tailRes.2)

/-- `create_order` from `megamall/views.py`: required-field check,
shipping-address validation (both framework-validated, passed here as
booleans), then `Order.objects.create(..., total_price=data["totalPrice"],
status="pending")` followed by the item loop. -/
def create_order (hasRequiredFields : Bool) (shippingValid : Bool)
    (catalog : List Product) (cartItems : List CartItem) (totalPrice : ℚ) :
    CreateOrderResult :=
  if !hasRequiredFields then .badRequest "Missing required fields"
  else if !shippingValid then .badRequest "Invalid shipping address"
  else
    let res := insertOrderItems catalog cartItems
    if res.2 then .created ⟨totalPrice, "pending", res.1⟩
    else .serverError ⟨totalPrice, "pending", res.1⟩

/-- Sum of the line totals stored on an order:
`Σ quantity × snapshot price`. -/
def computedTotal (o : OrderDoc) : ℚ :=
  (o.items.map (fun i => (i.quantity : ℚ) * i.price)).sum

/-- Modelled from the spec: "`computedTotal` ... equals the sum of
`quantity × currentCatalogPrice` for each line" — the spec-side sum over
cart lines of quantity times the referenced product's current catalog
price (`none` when some referenced product is absent). -/
def catalogLineSum (catalog : List Product) : List CartItem → Option ℚ
  | [] => some 0
  | it :: rest =>
    match catalog.find? (fun p => p.id == it.id) with
    | none => none
    | some p =>
      (catalogLineSum catalog rest).map
        (fun s => (it.quantity.getD 1 : ℚ) * p.price + s)

/-- Erase any client-submitted per-item price from a cart line. -/
def erasePrice (it : CartItem) : CartItem :=
  { it with clientPrice := none }

theorem insertOrderItems_erasePrice (catalog : List Product)
    (cart : List CartItem) :
    insertOrderItems catalog (cart.map erasePrice) =
      insertOrderItems catalog cart := by
  induction cart with
  | nil => rfl
  | cons it rest ih =>
    simp only [List.map_cons, insertOrderItems]
    have hid : (erasePrice it).id = it.id := rfl
    have hqty : (erasePrice it).quantity = it.quantity := rfl
    rw [hid, hqty, ih]

theorem insertOrderItems_ok (catalog : List Product) (cart : List CartItem)
    (hok : (insertOrderItems catalog cart).2 = true) :
    List.Forall₂
      (fun it oi => oi.quantity = it.quantity.getD 1 ∧
        ∃ p, catalog.find? (fun q => q.id == it.id) = some p ∧
          oi.price = p.price)
      cart (insertOrderItems catalog cart).1 ∧
    catalogLineSum catalog cart =
      some (((insertOrderItems catalog cart).1.map
        (fun i => (i.quantity : ℚ) * i.price)).sum) := by
  induction cart with
  | nil => exact ⟨List.Forall₂.nil, rfl⟩
  | cons it rest ih =>
    simp only [insertOrderItems] at hok ⊢
    cases hfind : catalog.find? (fun p => p.id == it.id) with
    | none => rw [hfind] at hok; simp at hok
    | some p =>
      rw [hfind] at hok
      simp only at hok
      obtain ⟨hall, hsum⟩ := ih hok
      constructor
      · exact List.Forall₂.cons ⟨rfl, p, hfind, rfl⟩ hall
      · simp only [catalogLineSum, hfind, hsum, List.map_cons,
          List.sum_cons]
        rfl

/-! ### Payment initiation: `initiate_payment` (`megamall/views.py`
lines 620-680)

The amount passes through `re.sub(r"[^\d.]", "", str(raw_amount))` —
every character except ASCII digits and dots is deleted (a leading minus
sign included) — and then `str(int(float(cleaned)))`.  On a digits-and-
dots string, `float` succeeds exactly when the string holds at least one
digit and at most one dot, and `int` truncates to the digits before the
dot.  (For ≥ 16 fractional digits IEEE-754 rounding could bump the
integer part; no order of magnitude relevant to the spec's scenarios
reaches that regime and no claim exercises it.) -/

def isAmountChar (c : Char) : Bool := c.isDigit || c = '.'

/-- `re.sub(r"[^\d.]", "", s)`. -/
def cleanAmount (s : List Char) : List Char := s.filter isAmountChar

/-- Digits-to-number, most significant first. -/
def digitsToNat (s : List Char) : Nat :=
  s.foldl (fun n c => 10 * n + (c.toNat - '0'.toNat)) 0

/-- `int(float(s))` on a digits-and-dots string: `none` models the
`ValueError` branch. -/
def parseCleanAmount (s : List Char) : Option Nat :=
  if s.any Char.isDigit && decide (s.count '.' ≤ 1) then
    some (digitsToNat (s.takeWhile (fun c => c ≠ '.')))
  else none

/-- The payload handed to `receive_payments_service.create_payment_request`:
the fields the claims are about (`phone_number`, the stringified integer
`amount`). -/
structure PaymentPayload where
  phone : String
  amount : Nat
  deriving DecidableEq, Repr

inductive PaymentResult where
  | clientError (msg : String)
  | serverError (msg : String)
  | initiated (payload : PaymentPayload)
  deriving DecidableEq, Repr

/-- Whether the control flow reached an outbound call to the payment
provider (the SDK token request precedes the STK push, so both the
token-failure 500 and the initiated 200 involve the gateway). -/
def gatewayReached : PaymentResult → Bool
  | .clientError _ => false
  | .serverError _ => true
  | .initiated _ => true

/-- `initiate_payment` from `megamall/views.py`: the phone is normalised
first (`normalize_phone(request.data.get("phone"))`, with Python's
`str()` coercion of `None`), the amount is required, cleaned and parsed,
then the only phone check is `if not phone:` on the normalised string,
then the SDK token acquisition (`tokenOk` models its success) and the
payment request. -/
def initiate_payment (phone : Option String) (rawAmount : Option String)
    (tokenOk : Bool) : PaymentResult :=
  match rawAmount with
  | none => .clientError "Amount is required"
  | some ra =>
    match parseCleanAmount (cleanAmount ra.data) with
    | none => .clientError "Invalid amount"
    | some n =>
      if normalizePhoneS (pyStrOfOpt phone) = "" then
        .clientError "Phone is required"
      else if !tokenOk then .serverError "Failed to fetch access token"
      else .initiated ⟨normalizePhoneS (pyStrOfOpt phone), n⟩

/-- The canonical phone pattern of the spec: `+2547` followed by exactly
eight digits. -/
def matchesCanonicalPhone (s : String) : Bool :=
  startsWith ['+', '2', '5', '4', '7'] s.data &&
    decide (s.data.length = 13) && (s.data.drop 5).all Char.isDigit

/-! ### Token cache: `get_kopokopo_access_token` (`megamall/views.py`
lines 558-602)

`datetime.utcnow()` is an integer instant; the module-level
`kopokopo_token_cache` dict is the cache; the Python truthiness tests
`if cache["token"] and cache["expires_at"] and ...` are modelled exactly
(an empty-string token is falsy; a datetime is always truthy). -/

structure TokenCache where
  token : Option String
  expires_at : Option Int
  deriving DecidableEq, Repr

def pyTruthyToken : Option String → Bool
  | none => false
  | some s => !(s == "")

/-- The cached-reuse condition of the source:
`cache["token"] and cache["expires_at"] and cache["expires_at"] > utcnow()`. -/
def cacheFresh (c : TokenCache) (now : Int) : Bool :=
  pyTruthyToken c.token &&
    (match c.expires_at with
     | none => false
     | some e => decide (e > now))

/-- A parsed token-endpoint response: `data.get("access_token")` and
`data.get("expires_in", 3600)`. -/
structure TokenResponse where
  access_token : Option String
  expires_in : Int
  deriving DecidableEq, Repr

/-- The cache write of the refresh path:
`expires_at = utcnow() + timedelta(seconds=expires_in - 60)`. -/
def refreshWrite (now : Int) (r : TokenResponse) : TokenCache :=
  ⟨r.access_token, some (now + (r.expires_in - 60))⟩

/-- `get_kopokopo_access_token`: returns
(returned token, cache afterwards, whether an outbound token request was
issued).  `resp = none` models the `except` branch (request error),
which returns `None` and leaves the cache untouched. -/
def get_kopokopo_access_token (c : TokenCache) (now : Int)
    (resp : Option TokenResponse) : Option String × TokenCache × Bool :=
  if cacheFresh c now then (c.token, c, false)
  else
    match resp with
    | some r => (r.access_token, refreshWrite now r, true)
    | none => (none, c, true)

/-- Two calls where both threads evaluate the cache condition before
either refresh lands.  The source guards `kopokopo_token_cache` with no
lock, and the check-then-`requests.post`-then-write sequence yields the
GIL during the network call, so this interleaving is reachable.  Returns
(final cache, number of outbound token requests). -/
def overlappedRun (c0 : TokenCache) (now : Int) (rA rB : TokenResponse) :
    TokenCache × Nat :=
  let fA := cacheFresh c0 now
  let fB := cacheFresh c0 now
  let c1 := if fA then c0 else refreshWrite now rA
  let c2 := if fB then c1 else refreshWrite now rB
  (c2, (if fA then 0 else 1) + (if fB then 0 else 1))

/-- The fully serialised schedule: the second call starts only after the
first completed. -/
def sequentialRun (c0 : TokenCache) (now : Int) (rA rB : TokenResponse) :
    TokenCache × Nat :=
  let res1 := get_kopokopo_access_token c0 now (some rA)
  let res2 := get_kopokopo_access_token res1.2.1 now (some rB)
  (res2.2.1, (if res1.2.2 then 1 else 0) + (if res2.2.2 then 1 else 0))

/-! ### Payment callback: `kopokopo_callback` (`megamall/views.py`
lines 686-703)

The handler parses `request.body` with `json.loads` (`bodyParses`
models success of the decode-and-parse), logs, and answers; it contains
no reference to `Order` or any other model, so the persisted state —
threaded through as `orders` — is returned unchanged. -/

inductive CallbackResponse where
  | successEnvelope
  | invalidCallback
  | methodNotAllowed
  deriving DecidableEq, Repr

/-- HTTP status of each `JsonResponse` the handler can build. -/
def callbackStatusCode : CallbackResponse → Nat
  | .successEnvelope => 200
  | .invalidCallback => 400
  | .methodNotAllowed => 405

def kopokopo_callback {σ : Type} (method : String) (bodyParses : Bool)
    (orders : σ) : CallbackResponse × σ :=
  if method = "POST" then
    if bodyParses then (.successEnvelope, orders)
    else (.invalidCallback, orders)
  else (.methodNotAllowed, orders)

/-! ### Order status: `get_order_status` (`megamall/views.py`
lines 423-445)

`Order.id` is a `models.UUIDField` (`megamall/models.py`).  Both
queryset lookups prepare the queried value through `UUIDField.to_python`:
a `bson.ObjectId` value is never a `uuid.UUID` and fails `uuid.UUID(hex=...)`
(`AttributeError` → `ValidationError`), so the first branch
(`ObjectId(order_id)` then `Order.objects.get(id=order_obj_id)`) always
raises into the bare `except:` regardless of the input; the string
fallback `Order.objects.get(id=order_id)` then decides the outcome:
a string that `uuid.UUID` rejects raises `ValidationError`, which is not
`Order.DoesNotExist`, so the outer handler answers 500. -/

/-- ASCII hexadecimal digit, both cases. -/
def isHexChar (c : Char) : Bool :=
  c.isDigit || ('a' ≤ c && c ≤ 'f') || ('A' ≤ c && c ≤ 'F')

/-- `uuid.UUID(hex=s)`: hyphens are removed, then exactly 32 hex digits
are required; the canonical value is the lowercase 32-hex form.
(The `urn:uuid:` and brace trimmings are not exercised here.) -/
def uuidParse (s : List Char) : Option (List Char) :=
  let t := s.filter (fun c => !(c == '-'))
  if decide (t.length = 32) && t.all isHexChar then
    some (t.map Char.toLower)
  else none

inductive StatusResponse where
  | snapshot (o : OrderDoc)
  | notFound
  | internalError
  deriving DecidableEq, Repr

/-- `get_order_status`: the store maps canonical lowercase 32-hex UUID
keys to order documents. -/
def get_order_status (store : List (List Char × OrderDoc))
    (order_id : List Char) : StatusResponse :=
  match uuidParse order_id with
  | some key =>
    match store.find? (fun kv => kv.1 == key) with
    | some kv => .snapshot kv.2
    | none => .notFound
  | none => .internalError

/-! ### Helper facts about the payment path -/

/-- `normalize_phone` never returns the empty list: every branch of
`normalizePhoneCore` emits a `+`-headed list. -/
theorem normalize_phone_ne_nil (x : List Char) : normalize_phone x ≠ [] := by
  unfold normalize_phone
  obtain ⟨rest, hr⟩ := normalizePhoneCore_plus (pyStrip x)
  rw [hr]
  simp

/-- String form: the normalised phone is never empty, so the
`if not phone:` guard of `initiate_payment` can never fire. -/
theorem normalizePhoneS_ne_empty (s : String) : normalizePhoneS s ≠ "" := by
  unfold normalizePhoneS
  intro h
  have hd := congrArg String.data h
  simp only at hd
  exact normalize_phone_ne_nil s.data hd

/-! ### Claim theorems -/

/-- C7: `normalize_phone` is idempotent — for every input string `x`,
`normalize_phone(normalize_phone(x)) = normalize_phone(x)` — and it maps
`"0712345678"`, `"254712345678"` and `"+254712345678"` all to
`"+254712345678"`. -/
theorem c7_normalize_phone_idempotent :
    (∀ x : String, normalizePhoneS (normalizePhoneS x) = normalizePhoneS x) ∧
    normalizePhoneS "0712345678" = "+254712345678" ∧
    normalizePhoneS "254712345678" = "+254712345678" ∧
    normalizePhoneS "+254712345678" = "+254712345678" := by
  refine ⟨normalizePhoneS_idem, ?_, ?_, ?_⟩ <;> decide

/-- C8: a POST to the payment callback endpoint is answered with the
success envelope (HTTP 200) when the body is valid JSON and with a
client error (HTTP 400) otherwise, and in both cases the persisted
order state is returned untouched. -/
theorem c8_callback_ack_no_mutation :
    ∀ (σ : Type) (orders : σ),
      (∀ b : Bool, kopokopo_callback "POST" b orders =
        ((if b then .successEnvelope else .invalidCallback), orders)) ∧
      callbackStatusCode .successEnvelope = 200 ∧
      callbackStatusCode .invalidCallback = 400 := by
  intro σ orders
  refine ⟨?_, rfl, rfl⟩
  intro b
  cases b <;> rfl

/-- C10: with no phone in the request, `normalize_phone(None)` yields the
non-empty string `"+254None"`, the `"Phone is required"` check can never
fire (for any input, since the normalised phone is never empty), and the
malformed phone is forwarded toward the gateway. -/
theorem c10_none_phone_forwarded :
    pyStrOfOpt none = "None" ∧
    normalizePhoneS "None" = "+254None" ∧
    (∀ s : String, normalizePhoneS s ≠ "") ∧
    (∀ (ra : Option String) (tok : Bool),
      initiate_payment none ra tok ≠ .clientError "Phone is required") ∧
    initiate_payment none (some "100") true = .initiated ⟨"+254None", 100⟩ := by
  refine ⟨rfl, by decide, normalizePhoneS_ne_empty, ?_, by decide⟩
  intro ra tok
  unfold initiate_payment
  cases ra with
  | none => simp
  | some r =>
    cases hp : parseCleanAmount (cleanAmount r.data) with
    | none => simp [hp]
    | some n =>
      simp only [hp]
      rw [if_neg (normalizePhoneS_ne_empty (pyStrOfOpt none))]
      cases tok <;> simp


/-- Unfolding equation for `initiate_payment` when an amount is present. -/
theorem initiate_payment_some (ph : Option String) (ra : String)
    (tok : Bool) :
    initiate_payment ph (some ra) tok =
      match parseCleanAmount (cleanAmount ra.data) with
      | none => .clientError "Invalid amount"
      | some n =>
        if normalizePhoneS (pyStrOfOpt ph) = "" then
          .clientError "Phone is required"
        else if !tok then .serverError "Failed to fetch access token"
        else .initiated ⟨normalizePhoneS (pyStrOfOpt ph), n⟩ := rfl

/-- C4 (counterexample): the phone `"abc"` normalises to `"+254abc"`,
which matches neither the canonical `+2547\d{8}` pattern (it fails
`matchesCanonicalPhone`, and containing letters it is no numeric
shortcode either), yet `initiate_payment` does not reject it — the
request reaches the gateway. -/
theorem c4_counterexample_letters_pass :
    matchesCanonicalPhone "+254abc" = false ∧
    initiate_payment (some "abc") (some "100") true =
      .initiated ⟨"+254abc", 100⟩ := by
  constructor <;> decide

/-- C4 (amended): `initiate_payment` performs no pattern validation on
the phone at all: its only phone check compares the normalised phone
with the empty string, which never matches, so no input is ever rejected
with a phone error; every 400 it can produce is about the amount. -/
theorem c4_no_phone_rejection (ph ra : Option String) (tok : Bool) :
    initiate_payment ph ra tok ≠ .clientError "Phone is required" ∧
    (∀ m, initiate_payment ph ra tok = .clientError m →
      m = "Amount is required" ∨ m = "Invalid amount") := by
  have hne := normalizePhoneS_ne_empty (pyStrOfOpt ph)
  constructor
  · cases ra with
    | none =>
      intro h
      exact absurd (PaymentResult.clientError.inj h) (by decide)
    | some r =>
      rw [initiate_payment_some]
      cases hp : parseCleanAmount (cleanAmount r.data) with
      | none =>
        intro h
        exact absurd (PaymentResult.clientError.inj h) (by decide)
      | some n =>
        simp only
        rw [if_neg hne]
        cases tok <;> simp
  · intro m hm
    cases ra with
    | none =>
      exact Or.inl (PaymentResult.clientError.inj hm).symm
    | some r =>
      rw [initiate_payment_some] at hm
      cases hp : parseCleanAmount (cleanAmount r.data) with
      | none =>
        rw [hp] at hm
        exact Or.inr (PaymentResult.clientError.inj hm).symm
      | some n =>
        rw [hp] at hm
        simp only at hm
        rw [if_neg hne] at hm
        cases tok <;> simp at hm

/-- C4 (witness): instantiating the amended theorem — a letters-only
amount produces the amount error, and the non-canonical phone is never
rejected. -/
theorem c4_no_phone_rejection_witness :
    ("Invalid amount" = "Amount is required" ∨
      "Invalid amount" = "Invalid amount") ∧
    initiate_payment (some "abc") (some "100") true ≠
      .clientError "Phone is required" :=
  ⟨(c4_no_phone_rejection (some "abc") (some "zz") true).2
      "Invalid amount" (by decide),
    (c4_no_phone_rejection (some "abc") (some "100") true).1⟩

/-- C3 (counterexample): `initiatePayment(phone="+254712345678",
amount="-5")` is not rejected: the cleaning regex deletes the minus
sign, the amount is forwarded as `5`, and the gateway is called. -/
theorem c3_counterexample_minus_five :
    initiate_payment (some "+254712345678") (some "-5") true =
      .initiated ⟨"+254712345678", 5⟩ ∧
    gatewayReached (initiate_payment (some "+254712345678") (some "-5")
      true) = true := by
  constructor <;> decide

/-- C3 (amended): `initiate_payment` rejects with `"Invalid amount"`
(HTTP 400), without any gateway call, exactly those amounts whose
string, after deleting every character but digits and dots, fails to
parse as a float; any amount that survives that cleaning — the sign
stripped, hence `"-5"` as `5`, and zero included — is forwarded to the
gateway. -/
theorem c3_amount_validation (ph : Option String) (ra : String)
    (tok : Bool) :
    (parseCleanAmount (cleanAmount ra.data) = none →
      initiate_payment ph (some ra) tok = .clientError "Invalid amount" ∧
      gatewayReached (initiate_payment ph (some ra) tok) = false) ∧
    (∀ n, parseCleanAmount (cleanAmount ra.data) = some n →
      gatewayReached (initiate_payment ph (some ra) tok) = true ∧
      (tok = true → initiate_payment ph (some ra) tok =
        .initiated ⟨normalizePhoneS (pyStrOfOpt ph), n⟩)) := by
  have hne := normalizePhoneS_ne_empty (pyStrOfOpt ph)
  constructor
  · intro hnone
    have h1 : initiate_payment ph (some ra) tok =
        .clientError "Invalid amount" := by
      rw [initiate_payment_some, hnone]
    rw [h1]
    exact ⟨rfl, rfl⟩
  · intro n hn
    cases tok with
    | false =>
      have h1 : initiate_payment ph (some ra) false =
          .serverError "Failed to fetch access token" := by
        rw [initiate_payment_some, hn]
        simp only
        rw [if_neg hne]
        rfl
      rw [h1]
      exact ⟨rfl, fun h => by cases h⟩
    | true =>
      have h1 : initiate_payment ph (some ra) true =
          .initiated ⟨normalizePhoneS (pyStrOfOpt ph), n⟩ := by
        rw [initiate_payment_some, hn]
        simp only
        rw [if_neg hne]
        rfl
      rw [h1]
      exact ⟨rfl, fun _ => rfl⟩

/-- C3 (witness): the amended theorem applied at `"abc"` (rejected, no
gateway call) and at `"-5"` (forwarded as `5`). -/
theorem c3_amount_validation_witness :
    (initiate_payment (some "+254712345678") (some "abc") true =
        .clientError "Invalid amount" ∧
      gatewayReached (initiate_payment (some "+254712345678") (some "abc")
        true) = false) ∧
    initiate_payment (some "+254712345678") (some "-5") true =
      .initiated ⟨normalizePhoneS (pyStrOfOpt (some "+254712345678")), 5⟩ :=
  ⟨(c3_amount_validation (some "+254712345678") "abc" true).1 (by decide),
    ((c3_amount_validation (some "+254712345678") "-5" true).2 5
      (by decide)).2 rfl⟩

/-- Computation of `create_order` once both framework validations pass. -/
theorem create_order_true_true (catalog : List Product)
    (cart : List CartItem) (t : ℚ) :
    create_order true true catalog cart t =
      if (insertOrderItems catalog cart).2 then
        .created ⟨t, "pending", (insertOrderItems catalog cart).1⟩
      else .serverError ⟨t, "pending", (insertOrderItems catalog cart).1⟩ :=
  rfl

/-- Inversion: an accepted (201) order forces both validations to have
passed, a fully successful item loop, and pins down the stored document. -/
theorem create_order_created {hr sv : Bool} {catalog : List Product}
    {cart : List CartItem} {t : ℚ} {o : OrderDoc}
    (h : create_order hr sv catalog cart t = .created o) :
    hr = true ∧ sv = true ∧ (insertOrderItems catalog cart).2 = true ∧
    o = ⟨t, "pending", (insertOrderItems catalog cart).1⟩ := by
  cases hr with
  | false => exact CreateOrderResult.noConfusion h
  | true =>
    cases sv with
    | false => exact CreateOrderResult.noConfusion h
    | true =>
      rw [create_order_true_true] at h
      cases hres : (insertOrderItems catalog cart).2 with
      | false =>
        rw [hres] at h
        simp only [Bool.false_eq_true, if_false] at h
        exact CreateOrderResult.noConfusion h
      | true =>
        rw [hres] at h
        simp only [if_true] at h
        exact ⟨rfl, rfl, rfl, (CreateOrderResult.created.inj h).symm⟩

/-- C1 (counterexample): `create_order` accepts a cart of one line of
product price `100` and quantity `2` together with a client-submitted
grand total of `999`; the stored total is `999`, which differs from the
`200` sum of the line totals. -/
theorem c1_counterexample_client_total :
    create_order true true [⟨"p1", 100⟩] [⟨"p1", some 2, none⟩] 999 =
      .created ⟨999, "pending", [⟨2, 100⟩]⟩ ∧
    ¬(OrderDoc.total_price ⟨999, "pending", [⟨2, 100⟩]⟩ =
      computedTotal ⟨999, "pending", [⟨2, 100⟩]⟩) := by
  constructor
  · rfl
  · intro h
    have : (999 : ℚ) = 2 * 100 + 0 := by
      simpa [computedTotal] using h
    norm_num at this

/-- C1 (amended): the stored total of every accepted order is the
client-submitted `totalPrice` — it equals the sum of the order's line
totals exactly when the client happened to submit that sum. -/
theorem c1_total_is_submitted {hr sv : Bool} {catalog : List Product}
    {cart : List CartItem} {t : ℚ} {o : OrderDoc}
    (h : create_order hr sv catalog cart t = .created o) :
    o.total_price = t ∧ o.status = "pending" ∧
    (o.total_price = computedTotal o ↔ t = computedTotal o) := by
  obtain ⟨-, -, -, ho⟩ := create_order_created h
  subst ho
  exact ⟨rfl, rfl, Iff.rfl⟩

/-- C1 (witness): the spec's own scenario — price 100, quantity 2,
submitted total 200 — instantiates the amended theorem. -/
theorem c1_total_is_submitted_witness :
    OrderDoc.total_price ⟨200, "pending", [⟨2, 100⟩]⟩ = 200 ∧
    OrderDoc.status ⟨200, "pending", [⟨2, 100⟩]⟩ = "pending" ∧
    (OrderDoc.total_price ⟨200, "pending", [⟨2, 100⟩]⟩ =
        computedTotal ⟨200, "pending", [⟨2, 100⟩]⟩ ↔
      (200 : ℚ) = computedTotal ⟨200, "pending", [⟨2, 100⟩]⟩) :=
  @c1_total_is_submitted true true [⟨"p1", 100⟩] [⟨"p1", some 2, none⟩]
    200 ⟨200, "pending", [⟨2, 100⟩]⟩ rfl

/-- C2: every accepted order snapshots, per cart line, the referenced
product's current catalog price into the `OrderItem` (with the line's
quantity, defaulted to 1), its computed total is the spec-side sum of
`quantity × currentCatalogPrice`, and the outcome is independent of any
client-submitted per-item price. -/
theorem c2_snapshot_catalog_prices {hr sv : Bool} {catalog : List Product}
    {cart : List CartItem} {t : ℚ} {o : OrderDoc}
    (h : create_order hr sv catalog cart t = .created o) :
    List.Forall₂
      (fun it oi => oi.quantity = it.quantity.getD 1 ∧
        ∃ p, catalog.find? (fun q => q.id == it.id) = some p ∧
          oi.price = p.price)
      cart o.items ∧
    catalogLineSum catalog cart = some (computedTotal o) ∧
    create_order hr sv catalog (cart.map erasePrice) t = .created o := by
  obtain ⟨hhr, hsv, hok, ho⟩ := create_order_created h
  subst hhr
  subst hsv
  obtain ⟨hall, hsum⟩ := insertOrderItems_ok catalog cart hok
  subst ho
  refine ⟨hall, hsum, ?_⟩
  rw [create_order_true_true, insertOrderItems_erasePrice, hok]
  simp only [if_true]

/-- C2 (witness): the spec's scenario, with a decoy client per-item
price of 1 on the cart line, which the code never reads. -/
theorem c2_snapshot_catalog_prices_witness :
    List.Forall₂
      (fun (it : CartItem) (oi : OrderItemDoc) =>
        oi.quantity = it.quantity.getD 1 ∧
        ∃ p, [(⟨"p1", 100⟩ : Product)].find? (fun q => q.id == it.id) =
          some p ∧ oi.price = p.price)
      [⟨"p1", some 2, some 1⟩] (OrderDoc.items ⟨200, "pending", [⟨2, 100⟩]⟩) ∧
    catalogLineSum [⟨"p1", 100⟩] [⟨"p1", some 2, some 1⟩] =
      some (computedTotal ⟨200, "pending", [⟨2, 100⟩]⟩) ∧
    create_order true true [⟨"p1", 100⟩]
      ([⟨"p1", some 2, some 1⟩].map erasePrice) 200 =
      .created ⟨200, "pending", [⟨2, 100⟩]⟩ :=
  @c2_snapshot_catalog_prices true true [⟨"p1", 100⟩]
    [⟨"p1", some 2, some 1⟩] 200 ⟨200, "pending", [⟨2, 100⟩]⟩ rfl

/-- C5: `get_order_status("000000000000000000000000")` does not answer
404.  `Order.id` is a UUID field, so both queryset branches prepare the
key through the UUID parser; the 24-hex ObjectId-form string fails it
(24 ≠ 32 hex digits), raising `ValidationError` rather than
`Order.DoesNotExist`, and the outer handler answers 500 — for every
store, known orders included.  A 404 is produced exactly for a
well-formed UUID that is absent from the store (second conjunct). -/
theorem c5_zero_objectid_internal_error :
    (∀ store : List (List Char × OrderDoc),
      get_order_status store ("000000000000000000000000".data) =
        .internalError) ∧
    get_order_status [] ("00000000000000000000000000000000".data) =
      .notFound := by
  constructor
  · intro store
    unfold get_order_status
    have h : uuidParse ("000000000000000000000000".data) = none := by decide
    rw [h]
  · decide

/-- C6: the cache written by a successful refresh at `t0` with duration
`expires_in` stores expiry `t0 + expires_in - 60`; a later call returns
the cached token with no outbound request exactly while
`now < (t0 + expires_in) - 60` — the token's nominal expiry minus the
60-second safety margin — and otherwise issues the client-credentials
request, writes the parsed token and the new expiry into the cache, and
returns the new token. -/
theorem c6_token_cache_margin (t0 now : Int) (r r2 : TokenResponse)
    (tok : String) (htok : r.access_token = some tok) (hne : tok ≠ "") :
    (now < t0 + r.expires_in - 60 →
      get_kopokopo_access_token (refreshWrite t0 r) now (some r2) =
        (some tok, refreshWrite t0 r, false)) ∧
    (t0 + r.expires_in - 60 ≤ now →
      get_kopokopo_access_token (refreshWrite t0 r) now (some r2) =
        (r2.access_token, refreshWrite now r2, true)) := by
  constructor
  · intro hlt
    have hfr : cacheFresh (refreshWrite t0 r) now = true := by
      simp only [cacheFresh, refreshWrite, htok, pyTruthyToken,
        Bool.and_eq_true, Bool.not_eq_true', beq_eq_false_iff_ne,
        decide_eq_true_eq]
      exact ⟨hne, by omega⟩
    unfold get_kopokopo_access_token
    rw [if_pos hfr]
    simp [refreshWrite, htok]
  · intro hle
    have hfr : cacheFresh (refreshWrite t0 r) now = false := by
      simp only [cacheFresh, refreshWrite, Bool.and_eq_false_iff]
      right
      simp only [decide_eq_false_iff_not]
      omega
    unfold get_kopokopo_access_token
    rw [if_neg (by simp [hfr])]

/-- C6 (witness): a refresh at `t0 = 0` with `expires_in = 3600`; a call
at `now = 100` hits the cache with no request, and a call at
`now = 3600` (past `3540 = 3600 - 60`) refreshes. -/
theorem c6_token_cache_margin_witness :
    get_kopokopo_access_token (refreshWrite 0 ⟨some "t1", 3600⟩) 100
        (some ⟨some "t2", 3600⟩) =
      (some "t1", refreshWrite 0 ⟨some "t1", 3600⟩, false) ∧
    get_kopokopo_access_token (refreshWrite 0 ⟨some "t1", 3600⟩) 3600
        (some ⟨some "t2", 3600⟩) =
      (some "t2", refreshWrite 3600 ⟨some "t2", 3600⟩, true) :=
  ⟨(c6_token_cache_margin 0 100 ⟨some "t1", 3600⟩ ⟨some "t2", 3600⟩ "t1"
      rfl (by decide)).1 (by decide),
    (c6_token_cache_margin 0 3600 ⟨some "t1", 3600⟩ ⟨some "t2", 3600⟩ "t1"
      rfl (by decide)).2 (by decide)⟩

/-- C9 (counterexample): starting from the empty/expired module-level
cache, the interleaving in which both calls evaluate the cache condition
before either refresh lands — reachable because the source holds no lock
and the check/fetch/write sequence blocks on the network between check
and write — issues two outbound token requests, not exactly one. -/
theorem c9_counterexample_two_requests :
    (overlappedRun ⟨none, none⟩ 0 ⟨some "tokA", 3600⟩
      ⟨some "tokB", 3600⟩).2 = 2 ∧
    (overlappedRun ⟨none, none⟩ 0 ⟨some "tokA", 3600⟩
      ⟨some "tokB", 3600⟩).2 ≠ 1 := by
  constructor <;> decide

/-- C9 (amended): with the expired cache, the overlapped schedule always
issues one request per call (two in total); only the fully serialised
schedule — second call after the first's write, with a truthy token and
more than 60 seconds of validity — issues exactly one. -/
theorem c9_no_mutual_exclusion (c0 : TokenCache) (now : Int)
    (rA rB : TokenResponse) (h : cacheFresh c0 now = false) :
    (overlappedRun c0 now rA rB).2 = 2 ∧
    (pyTruthyToken rA.access_token = true → 60 < rA.expires_in →
      (sequentialRun c0 now rA rB).2 = 1) := by
  constructor
  · simp [overlappedRun, h]
  · intro htok hexp
    have h2 : cacheFresh (refreshWrite now rA) now = true := by
      simp only [cacheFresh, refreshWrite, htok, Bool.true_and,
        decide_eq_true_eq]
      omega
    simp [sequentialRun, get_kopokopo_access_token, h, h2]

/-- C9 (witness): the amended theorem at the concrete expired cache. -/
theorem c9_no_mutual_exclusion_witness :
    (overlappedRun ⟨none, none⟩ 5 ⟨some "tokA", 3600⟩
      ⟨some "tokB", 3600⟩).2 = 2 ∧
    (sequentialRun ⟨none, none⟩ 5 ⟨some "tokA", 3600⟩
      ⟨some "tokB", 3600⟩).2 = 1 :=
  ⟨(c9_no_mutual_exclusion ⟨none, none⟩ 5 ⟨some "tokA", 3600⟩
      ⟨some "tokB", 3600⟩ (by decide)).1,
    (c9_no_mutual_exclusion ⟨none, none⟩ 5 ⟨some "tokA", 3600⟩
      ⟨some "tokB", 3600⟩ (by decide)).2 (by decide) (by decide)⟩
